import Mathlib

/-!
Verification of `live_tex_editor.py` (LiveTeXEditor): a shallow embedding of
the edit-debounce scheduler, the outline extractor, the compile orchestrator
and the periodic backup scheduler, with theorems settling the specified
properties against it.
-/

namespace LiveTeX

/-! ## Edit-trigger debouncer (`_on_text_modified` / `_live_update`)

`_on_text_modified` (source lines 253-260) cancels any pending `after`
callback and schedules `_live_update` 2000 ms later.  We model time as `Nat`
milliseconds; the debouncer state is the absolute fire time of the pending
callback, if one is armed.  A notification at time `t` first lets a pending
callback whose fire time has already been reached fire (the Tk event loop
runs it before the key event), then cancels/reschedules. -/

def quietIntervalMs : Nat := 2000

/-- One `_on_text_modified` call at time `t`: the pending callback, if armed
and already due (`p ≤ t`), has fired; the notification then replaces any
pending schedule with a fresh one at `t + 2000` (lines 258-260).  Returns the
new pending state and the list of `_live_update` fire times produced. -/
def debounceStep (pending : Option Nat) (t : Nat) : Option Nat × List Nat :=
  match pending with
  | none => (some (t + quietIntervalMs), [])
  | some p =>
    if p ≤ t then (some (t + quietIntervalMs), [p])
    else (some (t + quietIntervalMs), [])

/-- Run the debouncer over a time-ordered list of notification times and then
let time pass: the final pending callback, if any, fires. -/
def debounceGo (pending : Option Nat) : List Nat → List Nat
  | [] =>
    match pending with
    | none => []
    | some p => [p]
  | t :: rest =>
    let s := debounceStep pending t
    s.2 ++ debounceGo s.1 rest

/-- All `_live_update` fire times produced by a sequence of edit
notifications, starting with no pending callback. -/
def debounceFires (ts : List Nat) : List Nat :=
  debounceGo none ts

/-! ## Outline extractor (`_update_outline`, source lines 271-328)

The extractor splits the buffer into lines and matches each line against
`^\s*\\(chapter|section|subsection|subsubsection)\*?\{(.*?)\}`.  We embed the
regex directly: leading whitespace is dropped, a backslash is required, the
four alternatives are tried in the regex's left-to-right order with
backtracking into the alternation, `\*?` optionally consumes a star, `\{` a
brace, and the lazy `(.*?)\}` captures up to the first closing brace (`.`
does not match a newline). -/

/-- Characters matched by Python's `\s` (ASCII range, which is all that can
occur in a Tk text buffer line). -/
def isSpaceChar (c : Char) : Bool :=
  c = ' ' || c = '\t' || c = '\n' || c = '\r' || c = Char.ofNat 11 || c = Char.ofNat 12

/-- The lazy capture `(.*?)\}`: characters up to the first `}`.  Fails if no
`}` follows or a newline intervenes (`.` excludes newlines). -/
def takeTitle : List Char → Option (List Char)
  | [] => none
  | c :: cs =>
    if c = '}' then some []
    else if c = '\n' then none
    else (takeTitle cs).map (c :: ·)

/-- Try one alternative of the alternation: the keyword, then `\*?`, then
`\{(.*?)\}`.  `cs` is the input after the leading backslash. -/
def tryKind (kind : String) (cs : List Char) : Option String :=
  if kind.toList.isPrefixOf cs then
    let rest := cs.drop kind.length
    let rest := if rest.head? = some '*' then rest.drop 1 else rest
    match rest with
    | '{' :: rest => (takeTitle rest).map (fun t => String.mk t)
    | _ => none
  else none

/-- The four heading keywords, in the regex's alternation order. -/
def headingKinds : List String := ["chapter", "section", "subsection", "subsubsection"]

/-- Match the heading pattern against one line, returning the command name
and the captured title, or `none` for a non-matching line. -/
def matchHeading (line : String) : Option (String × String) :=
  let cs := line.toList.dropWhile isSpaceChar
  match cs with
  | '\\' :: rest =>
    (headingKinds.firstM (fun k => (tryKind k rest).map (fun t => (k, t))))
  | _ => none

/-- Depth of a matched command (source lines 306-313): chapter 1, section 2,
subsection 3, anything else (i.e. subsubsection) 4. -/
def cmdDepth (cmd : String) : Nat :=
  if cmd = "chapter" then 1
  else if cmd = "section" then 2
  else if cmd = "subsection" then 3
  else 4

/-- One Treeview item inserted by `_update_outline`: its item id (the line
number, since the id string is `"outline_" ++ lineno`), displayed title,
recorded line number, and parent item (`none` is the virtual root `""`). -/
structure OItem where
  iid : Nat
  title : String
  lineno : Nat
  parent : Option Nat
deriving DecidableEq, Repr

/-- The `parent_stack[depth] = iid` assignment after a match at depth `d` on
line `lineno` (source line 328): only the depth-`d` entry changes. -/
def stackUpdate (stack : Nat → Option Nat) (d lineno : Nat) : Nat → Option Nat :=
  fun d2 => if d2 = d then some lineno else stack d2

/-- The main loop of `_update_outline` (lines 297-328) over the remaining
lines, carrying the 1-based number of the next line and the latest-node
table (`parent_stack`; `stack 0 = none` is the virtual root, matching
`parent_stack = {0: ""}` with default `""`). -/
def outlineGo : List String → Nat → (Nat → Option Nat) → List OItem
  | [], _, _ => []
  | line :: rest, lineno, stack =>
    match matchHeading line with
    | none => outlineGo rest (lineno + 1) stack
    | some (cmd, title) =>
      let d := cmdDepth cmd
      { iid := lineno, title := title, lineno := lineno, parent := stack (d - 1) } ::
        outlineGo rest (lineno + 1) (stackUpdate stack d lineno)

/-- `_update_outline` on the buffer's lines: rebuild the whole tree from an
empty Treeview and the initial `parent_stack`. -/
def updateOutline (lines : List String) : List OItem :=
  outlineGo lines 1 (fun _ => none)

/-- The latest-node table after processing a list of lines, starting at line
number `n` with table `stack` (the same fold as `outlineGo`, keeping only the
table). -/
def stackAfter : List String → Nat → (Nat → Option Nat) → (Nat → Option Nat)
  | [], _, stack => stack
  | line :: rest, lineno, stack =>
    match matchHeading line with
    | none => stackAfter rest (lineno + 1) stack
    | some (cmd, _) => stackAfter rest (lineno + 1) (stackUpdate stack (cmdDepth cmd) lineno)

/-! ## Compile orchestrator (`_compile_now`, source lines 171-247)

`_compile_now` is a sequence of fallible steps; each external effect (file
system, subprocess, renderer, canvas) is represented by a field of
`CompileEnv` saying how it would turn out, and the run records which effects
were attempted and the surfaced outcome.  The log read on the non-zero-exit
branch (lines 213-215) is *not* inside a try/except block, so a failing read
there escapes as an uncaught exception; every other fallible step is wrapped.
The canvas is cleared and redrawn (lines 244-247) only after the render step
succeeded. -/

/-- Outcome of `subprocess.run` at lines 194-207: `pdflatex` missing from
PATH (`FileNotFoundError`), any other launch failure or timeout, or a
completed process with an exit code. -/
inductive RunResult
  | notFound
  | otherError
  | completed (returncode : Int)
deriving DecidableEq, Repr

/-- How the environment behaves for one `_compile_now` invocation. -/
structure CompileEnv where
  /-- `self.current_tex_path` (line 172). -/
  currentTexPath : Option String
  /-- whether writing the buffer to the source path succeeds (lines 177-183). -/
  saveOk : Bool
  /-- whether copying into `build/temp.tex` succeeds (lines 186-191). -/
  copyOk : Bool
  /-- outcome of launching `pdflatex` (lines 194-207). -/
  runResult : RunResult
  /-- whether `build/temp.log` exists (line 213). -/
  logExists : Bool
  /-- whether opening/reading the log succeeds (lines 214-215, unguarded). -/
  logReadOk : Bool
  /-- the log file's contents when readable. -/
  logContents : String
  /-- whether `build/temp.pdf` exists (line 224). -/
  pdfExists : Bool
  /-- whether decoding the first page succeeds (lines 228-241). -/
  renderOk : Bool
deriving DecidableEq, Repr

/-- Effects attempted by one `_compile_now` invocation, in order. -/
inductive CAction
  | writeSource
  | copyToBuild
  | runCompiler
  | readLog
  | renderPage (page : Nat)
  | clearCanvas
  | drawImage
deriving DecidableEq, Repr

/-- The surfaced classification of the compile step (spec taxonomy):
`success` is reaching line 228 (exit 0, artifact present); a render failure
is reported separately and recorded in `CompileRun.renderFailed`.
`uncaughtException` marks an exception escaping `_compile_now`. -/
inductive CKind
  | inputError
  | ioError
  | toolUnavailable
  | compileFailure (log : String)
  | artifactMissing
  | success
  | uncaughtException
deriving DecidableEq, Repr

/-- What one `_compile_now` invocation did. -/
structure CompileRun where
  outcome : CKind
  /-- the render step ran and failed (RenderError dialog, lines 239-241). -/
  renderFailed : Bool
  actions : List CAction
deriving DecidableEq, Repr

/-- Shallow embedding of `_compile_now` (lines 171-247). -/
def compileNow (env : CompileEnv) : CompileRun :=
  match env.currentTexPath with
  | none => ⟨.inputError, false, []⟩
  | some _ =>
    if !env.saveOk then ⟨.ioError, false, [.writeSource]⟩
    else if !env.copyOk then ⟨.ioError, false, [.writeSource, .copyToBuild]⟩
    else
      match env.runResult with
      | .notFound => ⟨.toolUnavailable, false, [.writeSource, .copyToBuild, .runCompiler]⟩
      | .otherError => ⟨.toolUnavailable, false, [.writeSource, .copyToBuild, .runCompiler]⟩
      | .completed rc =>
        if rc ≠ 0 then
          if env.logExists then
            if env.logReadOk then
              ⟨.compileFailure env.logContents, false,
                [.writeSource, .copyToBuild, .runCompiler, .readLog]⟩
            else
              ⟨.uncaughtException, false,
                [.writeSource, .copyToBuild, .runCompiler, .readLog]⟩
          else
            ⟨.compileFailure "", false, [.writeSource, .copyToBuild, .runCompiler]⟩
        else if !env.pdfExists then
          ⟨.artifactMissing, false, [.writeSource, .copyToBuild, .runCompiler]⟩
        else if env.renderOk then
          ⟨.success, false,
            [.writeSource, .copyToBuild, .runCompiler, .renderPage 0, .clearCanvas, .drawImage]⟩
        else
          ⟨.success, true, [.writeSource, .copyToBuild, .runCompiler, .renderPage 0]⟩

/-- Is an action an invocation of the page renderer? -/
def CAction.isRender : CAction → Bool
  | .renderPage _ => true
  | _ => false

/-! ## Periodic backup (`_schedule_backup` / `_do_backup`, lines 350-373) -/

def backupIntervalMs : Nat := 10 * 60 * 1000

/-- Scheduler-visible state of the backup loop: absolute fire time of the
armed timer, number of snapshot files written, number of caught-and-logged
write failures. -/
structure BackupState where
  pendingFire : Option Nat
  snapshots : Nat
  loggedErrors : Nat
deriving DecidableEq, Repr

/-- `_schedule_backup` at time `now` (lines 350-354): cancel any pending
timer and arm a new one `backupIntervalMs` later. -/
def scheduleBackup (now : Nat) (s : BackupState) : BackupState :=
  { s with pendingFire := some (now + backupIntervalMs) }

/-- `_do_backup` firing at time `now` (lines 356-373): if a document is
active, try the snapshot write, catching and logging a failure; then always
reschedule. -/
def doBackup (now : Nat) (docActive writeOk : Bool) (s : BackupState) : BackupState :=
  let s1 :=
    if docActive then
      if writeOk then { s with snapshots := s.snapshots + 1 }
      else { s with loggedErrors := s.loggedErrors + 1 }
    else s
  scheduleBackup now s1

/-! ## Helper lemmas -/

/-- Within a burst (each notification strictly less than the quiet interval
after the previous one), a freshly armed callback never fires before the next
notification, so the burst ends with exactly one pending callback armed at
`last + quietIntervalMs`, which then fires. -/
lemma debounceGo_burst (ts : List Nat) : ∀ t : Nat,
    List.Chain (fun a b => a ≤ b ∧ b < a + quietIntervalMs) t ts →
    debounceGo (some (t + quietIntervalMs)) ts =
      [(t :: ts).getLast (List.cons_ne_nil t ts) + quietIntervalMs] := by
  induction ts with
  | nil => intro t _; simp [debounceGo]
  | cons u rest ih =>
    intro t h
    rcases h with _ | ⟨⟨hle, hlt⟩, hchain⟩
    have hnf : ¬ (t + quietIntervalMs ≤ u) := by omega
    rw [List.getLast_cons (List.cons_ne_nil u rest)]
    simpa [debounceGo, debounceStep, hnf] using ih u hchain

/-- `outlineGo` emits exactly one item per matching line. -/
lemma outlineGo_length (lines : List String) : ∀ (n : Nat) (stack : Nat → Option Nat),
    (outlineGo lines n stack).length =
      (lines.filter (fun l => (matchHeading l).isSome)).length := by
  induction lines with
  | nil => intro n stack; simp [outlineGo]
  | cons line rest ih =>
    intro n stack
    cases h : matchHeading line with
    | none => simp [outlineGo, h, List.filter_cons, ih]
    | some p =>
      obtain ⟨cmd, title⟩ := p
      simp [outlineGo, h, List.filter_cons, ih]

/-- The item emitted for the matching line at index `i` (0-based, so line
number `n + i`) carries as parent the latest-node-table entry at its depth
minus one, as that table stands after the first `i` lines. -/
lemma outlineGo_mem (lines : List String) : ∀ (i n : Nat) (stack : Nat → Option Nat)
    (line cmd title : String),
    lines[i]? = some line →
    matchHeading line = some (cmd, title) →
    OItem.mk (n + i) title (n + i) (stackAfter (lines.take i) n stack (cmdDepth cmd - 1))
      ∈ outlineGo lines n stack := by
  induction lines with
  | nil => intro i _ _ _ _ _ hget; simp at hget
  | cons l0 rest ih =>
    intro i n stack line cmd title hget hmatch
    cases i with
    | zero =>
      rw [List.getElem?_cons_zero] at hget
      injection hget with hget
      subst hget
      simp [outlineGo, hmatch, stackAfter, List.take]
    | succ j =>
      rw [List.getElem?_cons_succ] at hget
      have harith : n + (j + 1) = (n + 1) + j := by omega
      cases h0 : matchHeading l0 with
      | none =>
        have h := ih j (n + 1) stack line cmd title hget hmatch
        rw [harith]
        simp only [outlineGo, h0, List.take_succ_cons, stackAfter]
        exact h
      | some p =>
        obtain ⟨cmd0, title0⟩ := p
        have h := ih j (n + 1) (stackUpdate stack (cmdDepth cmd0) n) line cmd title hget hmatch
        rw [harith]
        simp only [outlineGo, h0, List.take_succ_cons, stackAfter]
        exact List.mem_cons_of_mem _ h

/-! ## Claim theorems -/

/-- C1: N ≥ 1 edit notifications each arriving within 2000 ms of the
previous one produce exactly one `_live_update` invocation, fired 2000 ms
after the last notification; every notification replaces any pending
schedule with a fresh one 2000 ms out. -/
theorem debounce_burst_single_fire (t : Nat) (ts : List Nat)
    (h : List.Chain (fun a b => a ≤ b ∧ b < a + quietIntervalMs) t ts) :
    debounceFires (t :: ts) =
      [(t :: ts).getLast (List.cons_ne_nil t ts) + quietIntervalMs]
    ∧ ∀ (pending : Option Nat) (u : Nat),
        (debounceStep pending u).1 = some (u + quietIntervalMs) := by
  constructor
  · simpa [debounceFires, debounceGo, debounceStep] using debounceGo_burst ts t h
  · intro pending u
    cases pending with
    | none => rfl
    | some p =>
      simp only [debounceStep]
      split <;> rfl

/-- C1 witness: the burst 0, 1000, 1500 ms yields the single fire 3500 ms. -/
theorem debounce_burst_single_fire_witness :
    debounceFires [0, 1000, 1500] = [3500]
    ∧ ∀ (pending : Option Nat) (u : Nat),
        (debounceStep pending u).1 = some (u + quietIntervalMs) := by
  have h := debounce_burst_single_fire 0 [1000, 1500]
    (List.Chain.cons (by decide) (List.Chain.cons (by decide) List.Chain.nil))
  simpa using h

/-- C2: the three lines `\chapter{A}`, `\section{B}`, `\subsection{C}` yield
the chain A (under root) → B → C with line numbers 1, 2, 3; every input
produces exactly one node per pattern-matching line (non-matching lines
produce none); the four heading kinds map to depths 1, 2, 3, 4. -/
theorem outline_basic_tree :
    updateOutline ["\\chapter{A}", "\\section{B}", "\\subsection{C}"] =
      [⟨1, "A", 1, none⟩, ⟨2, "B", 2, some 1⟩, ⟨3, "C", 3, some 2⟩]
    ∧ (∀ lines : List String,
        (updateOutline lines).length =
          (lines.filter (fun l => (matchHeading l).isSome)).length)
    ∧ cmdDepth "chapter" = 1 ∧ cmdDepth "section" = 2
    ∧ cmdDepth "subsection" = 3 ∧ cmdDepth "subsubsection" = 4 :=
  ⟨by decide, fun lines => outlineGo_length lines 1 _, rfl, rfl, rfl, rfl⟩

/-- C5: a heading whose depth-(d-1) slot of the latest-node table is still
unfilled when its line is reached (e.g. a `\subsection` with no preceding
`\section`) is attached directly under the virtual root (`parent = none`)
and is a node of the output tree. -/
theorem orphan_heading_attaches_to_root
    (lines : List String) (i : Nat) (line cmd title : String)
    (hget : lines[i]? = some line)
    (hmatch : matchHeading line = some (cmd, title))
    (hslot : stackAfter (lines.take i) 1 (fun _ => none) (cmdDepth cmd - 1) = none) :
    OItem.mk (i + 1) title (i + 1) none ∈ updateOutline lines := by
  have h := outlineGo_mem lines i 1 (fun _ => none) line cmd title hget hmatch
  rw [hslot] at h
  simpa [updateOutline, Nat.add_comm] using h

/-- C5 witness: `\subsection{X}` as the only line attaches under root. -/
theorem orphan_heading_attaches_to_root_witness :
    OItem.mk 1 "X" 1 none ∈ updateOutline ["\\subsection{X}"] :=
  orphan_heading_attaches_to_root ["\\subsection{X}"] 0 "\\subsection{X}"
    "subsection" "X" rfl (by decide) rfl

/-- C6: a match at depth d rewrites only the depth-d entry of the
latest-node table — entries at any greater depth are untouched — so in
`\section{S1}`, `\subsection{SS}`, `\section{S2}`, `\subsubsection{X}` the
final `\subsubsection` attaches under the stale `SS` node (line 2) even
though `S2` intervened; no nesting validation occurs. -/
theorem stale_latest_node_reuse :
    (∀ (stack : Nat → Option Nat) (d lineno d2 : Nat),
      d < d2 → stackUpdate stack d lineno d2 = stack d2)
    ∧ (∀ (stack : Nat → Option Nat) (d lineno : Nat),
        stackUpdate stack d lineno d = some lineno)
    ∧ OItem.mk 4 "X" 4 (some 2) ∈
        updateOutline ["\\section{S1}", "\\subsection{SS}", "\\section{S2}",
          "\\subsubsection{X}"] := by
  refine ⟨?_, ?_, by decide⟩
  · intro stack d lineno d2 hd
    simp [stackUpdate, Nat.ne_of_gt hd]
  · intro stack d lineno
    simp [stackUpdate]

/-- C6 witness: a depth-2 update leaves the depth-4 entry untouched and sets
the depth-2 entry. -/
theorem stale_latest_node_reuse_witness :
    stackUpdate (fun _ => none) 2 3 4 = none
    ∧ stackUpdate (fun _ => none) 2 3 2 = some 3 :=
  ⟨stale_latest_node_reuse.1 (fun _ => none) 2 3 4 (by decide),
   stale_latest_node_reuse.2.1 (fun _ => none) 2 3⟩

/-- C3 counterexample: a compile invocation with non-zero exit code whose log
file exists but cannot be read does not surface CompileFailure with the
log's contents — an uncaught exception escapes instead — refuting the claim
that every non-zero-exit invocation surfaces Failure{CompileFailure}. -/
theorem nonzero_exit_without_compile_failure :
    (compileNow ⟨some "doc.tex", true, true, .completed 2, true, false,
        "log body", false, false⟩).outcome = CKind.uncaughtException
    ∧ (compileNow ⟨some "doc.tex", true, true, .completed 2, true, false,
        "log body", false, false⟩).outcome ≠ CKind.compileFailure "log body" := by
  refine ⟨rfl, ?_⟩
  decide

/-- C3 amended: a completed compiler run with non-zero exit code whose log
file, if present, is readable surfaces CompileFailure carrying the log
contents when the log file exists and the empty string otherwise; the page
renderer is never invoked and the canvas is untouched.  (When the log exists
but reading it fails, an uncaught exception escapes instead — see the
counterexample above.) -/
theorem nonzero_exit_surfaces_compile_failure (env : CompileEnv) (p : String) (rc : Int)
    (hpath : env.currentTexPath = some p) (hsave : env.saveOk = true)
    (hcopy : env.copyOk = true) (hrun : env.runResult = .completed rc)
    (hrc : rc ≠ 0) (hread : env.logReadOk = true) :
    (compileNow env).outcome =
      .compileFailure (if env.logExists then env.logContents else "")
    ∧ (compileNow env).actions.filter CAction.isRender = []
    ∧ CAction.clearCanvas ∉ (compileNow env).actions
    ∧ CAction.drawImage ∉ (compileNow env).actions := by
  obtain ⟨path, save, copy, run, lex, lrd, lc, pdf, rok⟩ := env
  simp only at hpath hsave hcopy hrun hread
  subst hpath hsave hcopy hrun hread
  cases lex <;> simp [compileNow, hrc, CAction.isRender]

/-- C3 witness: a concrete failing run with an existing log. -/
theorem nonzero_exit_surfaces_compile_failure_witness :
    (compileNow ⟨some "main.tex", true, true, .completed 1, true, true,
        "! Undefined control sequence.", false, false⟩).outcome =
      .compileFailure (if (true : Bool) then "! Undefined control sequence." else "")
    ∧ (compileNow ⟨some "main.tex", true, true, .completed 1, true, true,
        "! Undefined control sequence.", false, false⟩).actions.filter CAction.isRender = []
    ∧ CAction.clearCanvas ∉ (compileNow ⟨some "main.tex", true, true, .completed 1, true,
        true, "! Undefined control sequence.", false, false⟩).actions
    ∧ CAction.drawImage ∉ (compileNow ⟨some "main.tex", true, true, .completed 1, true,
        true, "! Undefined control sequence.", false, false⟩).actions :=
  nonzero_exit_surfaces_compile_failure _ "main.tex" 1 rfl rfl rfl rfl (by decide) rfl

/-- C4: a compiler run that exits 0 yields Success with exactly one renderer
invocation — on page 0 of the artifact — when the artifact exists, and
ArtifactMissing with no renderer invocation when it does not. -/
theorem zero_exit_renders_once_or_artifact_missing (env : CompileEnv) (p : String)
    (hpath : env.currentTexPath = some p) (hsave : env.saveOk = true)
    (hcopy : env.copyOk = true) (hrun : env.runResult = .completed 0) :
    (env.pdfExists = true →
      (compileNow env).outcome = .success
      ∧ (compileNow env).actions.filter CAction.isRender = [.renderPage 0])
    ∧ (env.pdfExists = false →
      (compileNow env).outcome = .artifactMissing
      ∧ (compileNow env).actions.filter CAction.isRender = []) := by
  obtain ⟨path, save, copy, run, lex, lrd, lc, pdf, rok⟩ := env
  simp only at hpath hsave hcopy hrun
  subst hpath hsave hcopy hrun
  cases pdf <;> cases rok <;> simp [compileNow, CAction.isRender]

/-- C4 witness: a concrete successful run with the artifact present. -/
theorem zero_exit_renders_once_or_artifact_missing_witness :
    (compileNow ⟨some "main.tex", true, true, .completed 0, false, true, "",
        true, true⟩).outcome = .success
    ∧ (compileNow ⟨some "main.tex", true, true, .completed 0, false, true, "",
        true, true⟩).actions.filter CAction.isRender = [.renderPage 0] :=
  (zero_exit_renders_once_or_artifact_missing _ "main.tex" rfl rfl rfl rfl).1 rfl

/-- C7: with no active document path, the run reports InputError and attempts
no effect at all: no write, no copy, no compiler launch. -/
theorem no_document_no_io (env : CompileEnv)
    (h : env.currentTexPath = none) :
    (compileNow env).outcome = .inputError ∧ (compileNow env).actions = [] := by
  obtain ⟨path, save, copy, run, lex, lrd, lc, pdf, rok⟩ := env
  simp only at h
  subst h
  exact ⟨rfl, rfl⟩

/-- C7 witness: a concrete environment with no document open. -/
theorem no_document_no_io_witness :
    (compileNow ⟨none, true, true, .completed 0, false, true, "", true, true⟩).outcome =
      .inputError
    ∧ (compileNow ⟨none, true, true, .completed 0, false, true, "", true, true⟩).actions
        = [] :=
  no_document_no_io _ rfl

/-- C8: every firing of the backup timer re-arms it exactly one fixed
10-minute period later, whether or not a document is active and whether or
not the snapshot write succeeds; a write failure is only counted as a logged
error (it does not reach the caller, and the reschedule still happens). -/
theorem backup_always_reschedules :
    (∀ (now : Nat) (docActive writeOk : Bool) (s : BackupState),
      (doBackup now docActive writeOk s).pendingFire = some (now + backupIntervalMs))
    ∧ backupIntervalMs = 10 * 60 * 1000
    ∧ (∀ (now : Nat) (s : BackupState),
        (doBackup now true false s).loggedErrors = s.loggedErrors + 1
        ∧ (doBackup now true false s).snapshots = s.snapshots) := by
  refine ⟨?_, rfl, ?_⟩
  · intro now docActive writeOk s
    cases docActive <;> cases writeOk <;> simp [doBackup, scheduleBackup]
  · intro now s
    simp [doBackup, scheduleBackup]

/-- C9 counterexample: with a non-zero exit code, an existing log file and a
failing log read, `_compile_now` ends in an uncaught exception rather than a
typed diagnostic — the `open`/`read` at lines 213-215 is outside any
try/except block. -/
theorem log_read_failure_escapes :
    (compileNow ⟨some "main.tex", true, true, .completed 1, true, false, "",
        false, false⟩).outcome = .uncaughtException :=
  rfl

/-- C9 amended: no exception escapes `_compile_now` except in exactly one
situation — the compiler exited non-zero, the log file exists, and reading
it fails; every other failure is surfaced as a typed diagnostic. -/
theorem uncaught_iff_unreadable_log (env : CompileEnv) :
    (compileNow env).outcome = CKind.uncaughtException ↔
      (env.currentTexPath ≠ none ∧ env.saveOk = true ∧ env.copyOk = true
       ∧ (∃ rc : Int, env.runResult = .completed rc ∧ rc ≠ 0)
       ∧ env.logExists = true ∧ env.logReadOk = false) := by
  obtain ⟨path, save, copy, run, lex, lrd, lc, pdf, rok⟩ := env
  rcases run with _ | _ | rc
  · cases path <;> cases save <;> cases copy <;> simp [compileNow]
  · cases path <;> cases save <;> cases copy <;> simp [compileNow]
  · rcases eq_or_ne rc 0 with hrc | hrc
    · subst hrc
      cases path <;> cases save <;> cases copy <;> cases lex <;> cases lrd <;>
        cases pdf <;> cases rok <;> simp [compileNow]
    · cases path <;> cases save <;> cases copy <;> cases lex <;> cases lrd <;>
        cases pdf <;> cases rok <;> simp [compileNow, hrc]

/-- C10: whenever a run ends in any outcome other than a fully successful
render — any typed failure, or a render failure after a successful
compile — the canvas is neither cleared nor redrawn, so the previously
displayed preview stays in place. -/
theorem failed_compile_leaves_canvas (env : CompileEnv)
    (h : (compileNow env).outcome ≠ CKind.success ∨ (compileNow env).renderFailed = true) :
    CAction.clearCanvas ∉ (compileNow env).actions
    ∧ CAction.drawImage ∉ (compileNow env).actions := by
  obtain ⟨path, save, copy, run, lex, lrd, lc, pdf, rok⟩ := env
  rcases run with _ | _ | rc
  · cases path <;> cases save <;> cases copy <;> simp [compileNow]
  · cases path <;> cases save <;> cases copy <;> simp [compileNow]
  · rcases eq_or_ne rc 0 with hrc | hrc
    · subst hrc
      cases path <;> cases save <;> cases copy <;> cases lex <;> cases lrd <;>
        cases pdf <;> cases rok <;> simp_all [compileNow]
    · cases path <;> cases save <;> cases copy <;> cases lex <;> cases lrd <;>
        cases pdf <;> cases rok <;> simp_all [compileNow, hrc]

/-- C10 witness: a render failure after a successful compile leaves the
canvas untouched. -/
theorem failed_compile_leaves_canvas_witness :
    CAction.clearCanvas ∉ (compileNow ⟨some "main.tex", true, true, .completed 0,
        false, true, "", true, false⟩).actions
    ∧ CAction.drawImage ∉ (compileNow ⟨some "main.tex", true, true, .completed 0,
        false, true, "", true, false⟩).actions :=
  failed_compile_leaves_canvas _ (Or.inr rfl)

end LiveTeX
